import Mathlib

/-!
Shallow embedding of the authentication / session-security subsystem of
`src/server.py` (Subscription Tracker), together with proofs checking the
natural-language specification against it.

Conventions of the embedding:
* Python `datetime` values are modelled as `Int` seconds (the code only
  compares timestamps and takes differences in whole seconds).
* Python `bytes` are `List Nat` with every element `< 256`.
* SQLite tables are lists of row structures; `fetchone` on a query is
  `List.find?`; `DELETE ... WHERE p` is `List.filter (¬ p)`.
* Code that can raise past its boundary returns `Except PyError _`.
* `hashlib.pbkdf2_hmac("sha256", ...)`, `hashlib.sha256` and
  `hmac.compare_digest` are embedded directly (FIPS 180-4 SHA-256,
  RFC 2104 HMAC, RFC 2898 PBKDF2 with dkLen = 32).
-/

namespace SubTracker

/-! ## Hex encoding (Python `bytes.hex` / `bytes.fromhex`) -/

def hexChars : List Char := "0123456789abcdef".data

def encodeHexDigit (d : Nat) : Char :=
  hexChars.getD d '0'

/-- One byte to two lowercase hex characters, as `bytes.hex` does. -/
def byteToHexChars (b : Nat) : List Char :=
  [encodeHexDigit (b / 16), encodeHexDigit (b % 16)]

def bytesToHexChars (bs : List Nat) : List Char :=
  bs.flatMap byteToHexChars

def bytesToHex (bs : List Nat) : String :=
  String.mk (bytesToHexChars bs)

def hexDigitVal (c : Char) : Option Nat :=
  List.lookup c
    [('0', 0), ('1', 1), ('2', 2), ('3', 3), ('4', 4), ('5', 5), ('6', 6),
     ('7', 7), ('8', 8), ('9', 9), ('a', 10), ('b', 11), ('c', 12), ('d', 13),
     ('e', 14), ('f', 15), ('A', 10), ('B', 11), ('C', 12), ('D', 13),
     ('E', 14), ('F', 15)]

/-- Python `bytes.fromhex`: pairs of hex digits, spaces allowed between
bytes; anything else (odd digit count, non-hex character) raises
`ValueError`, modelled as `none`. -/
def bytesFromHexChars : List Char → Option (List Nat)
  | [] => some []
  | c :: rest =>
    if c = ' ' then bytesFromHexChars rest
    else
      match rest with
      | [] => none
      | c2 :: rest2 =>
        match hexDigitVal c, hexDigitVal c2, bytesFromHexChars rest2 with
        | some hi, some lo, some bs => some ((16 * hi + lo) :: bs)
        | _, _, _ => none

/-! ## UTF-8 encoding (Python `str.encode("utf-8")`) -/

def utf8EncodeChar (c : Char) : List Nat :=
  let n := c.toNat
  if n < 0x80 then [n]
  else if n < 0x800 then [0xC0 + n / 64, 0x80 + n % 64]
  else if n < 0x10000 then [0xE0 + n / 4096, 0x80 + n / 64 % 64, 0x80 + n % 64]
  else [0xF0 + n / 262144, 0x80 + n / 4096 % 64, 0x80 + n / 64 % 64, 0x80 + n % 64]

def utf8Encode (s : String) : List Nat :=
  s.data.flatMap utf8EncodeChar

/-! ## SHA-256 (FIPS 180-4), as used by `hashlib` -/

def M32 : Nat := 2 ^ 32

def add32 (x y : Nat) : Nat := (x + y) % M32

def rotr32 (n x : Nat) : Nat := ((x >>> n) ||| (x <<< (32 - n))) % M32

def bigSigma0 (x : Nat) : Nat := rotr32 2 x ^^^ rotr32 13 x ^^^ rotr32 22 x

def bigSigma1 (x : Nat) : Nat := rotr32 6 x ^^^ rotr32 11 x ^^^ rotr32 25 x

def smallSigma0 (x : Nat) : Nat := rotr32 7 x ^^^ rotr32 18 x ^^^ (x >>> 3)

def smallSigma1 (x : Nat) : Nat := rotr32 17 x ^^^ rotr32 19 x ^^^ (x >>> 10)

def chFn (x y z : Nat) : Nat := (x &&& y) ^^^ ((M32 - 1 - x % M32) &&& z)

def majFn (x y z : Nat) : Nat := (x &&& y) ^^^ (x &&& z) ^^^ (y &&& z)

/-- The 64 SHA-256 round constants of FIPS 180-4 §4.2.2, written in
decimal. -/
def sha256K : List Nat :=
  [1116352408, 1899447441, 3049323471, 3921009573, 961987163,
   1508970993, 2453635748, 2870763221, 3624381080, 310598401,
   607225278, 1426881987, 1925078388, 2162078206, 2614888103,
   3248222580, 3835390401, 4022224774, 264347078, 604807628,
   770255983, 1249150122, 1555081692, 1996064986, 2554220882,
   2821834349, 2952996808, 3210313671, 3336571891, 3584528711,
   113926993, 338241895, 666307205, 773529912, 1294757372,
   1396182291, 1695183700, 1986661051, 2177026350, 2456956037,
   2730485921, 2820302411, 3259730800, 3345764771, 3516065817,
   3600352804, 4094571909, 275423344, 430227734, 506948616,
   659060556, 883997877, 958139571, 1322822218, 1537002063,
   1747873779, 1955562222, 2024104815, 2227730452, 2361852424,
   2428436474, 2756734187, 3204031479, 3329325298]

structure Sha256State where
  h0 : Nat
  h1 : Nat
  h2 : Nat
  h3 : Nat
  h4 : Nat
  h5 : Nat
  h6 : Nat
  h7 : Nat
deriving DecidableEq

/-- The eight SHA-256 initial hash values of FIPS 180-4 §5.3.3, in
decimal. -/
def sha256Init : Sha256State :=
  ⟨1779033703, 3144134277, 1013904242, 2773480762,
   1359893119, 2600822924, 528734635, 1541459225⟩

/-- Extend the 16-word block to the 64-word message schedule. -/
def extendSchedule (w : List Nat) : Nat → List Nat
  | 0 => w
  | n + 1 =>
    let t := w.length
    let next :=
      (smallSigma1 (w.getD (t - 2) 0) + w.getD (t - 7) 0 +
        smallSigma0 (w.getD (t - 15) 0) + w.getD (t - 16) 0) % M32
    extendSchedule (w ++ [next]) n

def compressStep (st : Sha256State) (kw : Nat × Nat) : Sha256State :=
  let t1 := (st.h7 + bigSigma1 st.h4 + chFn st.h4 st.h5 st.h6 + kw.1 + kw.2) % M32
  let t2 := (bigSigma0 st.h0 + majFn st.h0 st.h1 st.h2) % M32
  ⟨(t1 + t2) % M32, st.h0, st.h1, st.h2, (st.h3 + t1) % M32, st.h4, st.h5, st.h6⟩

def compressBlock (st : Sha256State) (block : List Nat) : Sha256State :=
  let w := extendSchedule block 48
  let f := (sha256K.zip w).foldl compressStep st
  ⟨add32 st.h0 f.h0, add32 st.h1 f.h1, add32 st.h2 f.h2, add32 st.h3 f.h3,
   add32 st.h4 f.h4, add32 st.h5 f.h5, add32 st.h6 f.h6, add32 st.h7 f.h7⟩

/-- Group bytes into big-endian 32-bit words. -/
def bytesToWords : List Nat → List Nat
  | b0 :: b1 :: b2 :: b3 :: rest =>
    (b0 * 2 ^ 24 + b1 * 2 ^ 16 + b2 * 2 ^ 8 + b3) % M32 :: bytesToWords rest
  | _ => []

/-- Split a byte list into 64-byte blocks (fueled to avoid unfounded
recursion; the fuel is always sufficient after padding). -/
def chunk64 : Nat → List Nat → List (List Nat)
  | 0, _ => []
  | _, [] => []
  | fuel + 1, l => l.take 64 :: chunk64 fuel (l.drop 64)

/-- Big-endian 8-byte encoding of the bit length. -/
def lengthBytes64 (bitLen : Nat) : List Nat :=
  [bitLen / 2 ^ 56 % 256, bitLen / 2 ^ 48 % 256, bitLen / 2 ^ 40 % 256,
   bitLen / 2 ^ 32 % 256, bitLen / 2 ^ 24 % 256, bitLen / 2 ^ 16 % 256,
   bitLen / 2 ^ 8 % 256, bitLen % 256]

def sha256Pad (msg : List Nat) : List Nat :=
  let l := msg.length
  let zeros := (119 - l % 64) % 64
  msg ++ [0x80] ++ List.replicate zeros 0 ++ lengthBytes64 (8 * l)

def wordBytes (w : Nat) : List Nat :=
  [w / 2 ^ 24 % 256, w / 2 ^ 16 % 256, w / 2 ^ 8 % 256, w % 256]

def sha256StateBytes (st : Sha256State) : List Nat :=
  wordBytes st.h0 ++ wordBytes st.h1 ++ wordBytes st.h2 ++ wordBytes st.h3 ++
  wordBytes st.h4 ++ wordBytes st.h5 ++ wordBytes st.h6 ++ wordBytes st.h7

/-- SHA-256 digest of a byte string. -/
def sha256Bytes (msg : List Nat) : List Nat :=
  let padded := sha256Pad msg
  let blocks := (chunk64 padded.length padded).map bytesToWords
  sha256StateBytes (blocks.foldl compressBlock sha256Init)

/-! ## HMAC-SHA256 (RFC 2104) and PBKDF2 (RFC 2898) -/

def hmacSha256 (key msg : List Nat) : List Nat :=
  let k0 := if 64 < key.length then sha256Bytes key else key
  let kp := k0 ++ List.replicate (64 - k0.length) 0
  let ipadKey := kp.map (fun b => b ^^^ 0x36)
  let opadKey := kp.map (fun b => b ^^^ 0x5c)
  sha256Bytes (opadKey ++ sha256Bytes (ipadKey ++ msg))

def pbkdf2Loop (pw : List Nat) : List Nat → List Nat → Nat → List Nat
  | _, acc, 0 => acc
  | u, acc, n + 1 =>
    let u2 := hmacSha256 pw u
    pbkdf2Loop pw u2 (List.zipWith (fun a b => a ^^^ b) acc u2) n

/-- `hashlib.pbkdf2_hmac("sha256", pw, salt, iters)` with the default
dkLen (32 bytes = one block). -/
def pbkdf2HmacSha256 (pw salt : List Nat) (iters : Nat) : List Nat :=
  match iters with
  | 0 => []
  | n + 1 =>
    let u1 := hmacSha256 pw (salt ++ [0, 0, 0, 1])
    pbkdf2Loop pw u1 u1 n

/-! ## Password hashing (`hash_password` / `verify_password`) -/

/-- `PASSWORD_HASH_ITERATIONS = 200_000` in src/server.py. -/
def PASSWORD_HASH_ITERATIONS : Nat := 200000

/-- Exceptions that can escape the embedded code. -/
inductive PyError where
  | valueError
deriving DecidableEq

/-- The digest both `hash_password` and `verify_password` derive:
`hashlib.pbkdf2_hmac("sha256", password.encode("utf-8"), salt,
PASSWORD_HASH_ITERATIONS)`. -/
def pbkdf2Digest (password : String) (salt : List Nat) : List Nat :=
  pbkdf2HmacSha256 (utf8Encode password) salt PASSWORD_HASH_ITERATIONS

/-- `hash_password(password, salt)`: the source draws a random 16-byte
salt when none is given; the salt is a parameter here. Returns
`salt_hex:digest_hex`. -/
def hashPassword (password : String) (salt : List Nat) : String :=
  bytesToHex salt ++ ":" ++ bytesToHex (pbkdf2Digest password salt)

/-- `str.split(":", maxsplit=1)` followed by unpacking into two names:
`none` when there is no colon (the unpacking raises `ValueError`,
which the source catches). -/
def splitOnceColon : List Char → Option (List Char × List Char)
  | [] => none
  | c :: rest =>
    if c = ':' then some ([], rest)
    else
      match splitOnceColon rest with
      | none => none
      | some (a, b) => some (c :: a, b)

/-- `hmac.compare_digest` on two byte strings: constant-time equality,
false on length mismatch. -/
def compareDigest (a b : List Nat) : Bool := a == b

/-- The body of `verify_password` after the `split` succeeded:
`bytes.fromhex` on the salt, then on the digest (each raising
`ValueError` on bad hex), then the constant-time digest comparison. -/
def verifyHexParts (password : String) (saltHex digestHex : List Char) :
    Except PyError Bool :=
  match bytesFromHexChars saltHex with
  | none => .error .valueError
  | some salt =>
    match bytesFromHexChars digestHex with
    | none => .error .valueError
    | some expected =>
      .ok (compareDigest (pbkdf2Digest password salt) expected)

/-- `verify_password(password, encoded_hash)`. The `try/except ValueError`
in the source covers only the `split`/unpack line (no colon gives
`.ok false`); the two `bytes.fromhex` calls sit outside it, so a
bad-hex encoding raises. -/
def verifyPassword (password encodedHash : String) : Except PyError Bool :=
  match splitOnceColon encodedHash.data with
  | none => .ok false
  | some (saltHex, digestHex) => verifyHexParts password saltHex digestHex

/-- `hash_session_token(token)`: hex SHA-256 of the UTF-8 token. -/
def hashSessionToken (token : String) : String :=
  bytesToHex (sha256Bytes (utf8Encode token))

/-! ## Login rate limiter (`LoginRateLimiter`, src/server.py lines 111–166)

The class keeps its state in `self._entries`, an in-process `dict`;
dicts preserve insertion order, so the state is an association list.
Timestamps are `Int` seconds; `LOGIN_ATTEMPT_WINDOW` is 10 minutes and
`LOGIN_LOCKOUT_DURATION` 15 minutes. -/

structure RLEntry where
  attempts : List Int
  lockedUntil : Option Int
deriving DecidableEq

structure LoginRateLimiter where
  maxAttempts : Nat
  attemptWindow : Int
  lockoutDuration : Int
  entries : List (String × RLEntry)
deriving DecidableEq

/-- The state of the module-level singleton `LOGIN_RATE_LIMITER =
LoginRateLimiter()` right after process start: default parameters and an
empty `_entries` dict. -/
def initLoginRateLimiter : LoginRateLimiter :=
  { maxAttempts := 5, attemptWindow := 600, lockoutDuration := 900, entries := [] }

def lookupEntry (es : List (String × RLEntry)) (key : String) : Option RLEntry :=
  (es.find? (fun kv => kv.1 == key)).map (·.2)

/-- In-place update of one dict binding (keys are unique; insertion order
is preserved, as for a Python dict). -/
def setEntry : List (String × RLEntry) → String → RLEntry → List (String × RLEntry)
  | [], key, e => [(key, e)]
  | kv :: rest, key, e =>
    if kv.1 == key then (key, e) :: rest else kv :: setEntry rest key e

/-- `_prune_attempts`: keep timestamps with `now - item <= attempt_window`. -/
def pruneAttempts (window : Int) (attempts : List Int) (now : Int) : List Int :=
  attempts.filter (fun t => now - t ≤ window)

/-- `is_limited(key, now)`: returns `(limited, retry_after)` and the
updated limiter state (the entry dict is mutated in place). -/
def isLimited (lim : LoginRateLimiter) (key : String) (now : Int) :
    (Bool × Int) × LoginRateLimiter :=
  match lookupEntry lim.entries key with
  | none => ((false, 0), lim)
  | some entry =>
    match entry.lockedUntil with
    | some lockedUntil =>
      if now < lockedUntil then
        ((true, max 1 (lockedUntil - now)), lim)
      else
        -- lock expired: locked_until := None, attempts := [], then pruned.
        ((false, 0), { lim with entries := setEntry lim.entries key ⟨[], none⟩ })
    | none =>
      ((false, 0),
        { lim with entries :=
            setEntry lim.entries key ⟨pruneAttempts lim.attemptWindow entry.attempts now, none⟩ })

/-- `register_failure(key, now)`: returns the lockout duration in seconds
when this failure triggers the lockout (0 otherwise) and the updated
state. -/
def registerFailure (lim : LoginRateLimiter) (key : String) (now : Int) :
    Int × LoginRateLimiter :=
  let entry := (lookupEntry lim.entries key).getD ⟨[], none⟩
  -- `setdefault` inserts the default entry when the key is absent.
  let entries0 :=
    match lookupEntry lim.entries key with
    | some _ => lim.entries
    | none => lim.entries ++ [(key, (⟨[], none⟩ : RLEntry))]
  let attempts := pruneAttempts lim.attemptWindow entry.attempts now ++ [now]
  if lim.maxAttempts ≤ attempts.length then
    (lim.lockoutDuration,
      { lim with entries :=
          setEntry entries0 key ⟨attempts, some (now + lim.lockoutDuration)⟩ })
  else
    (0, { lim with entries := setEntry entries0 key ⟨attempts, entry.lockedUntil⟩ })

/-! ## Users, sessions and session issuance / resolution -/

structure UserRow where
  id : Nat
  name : String
  email : String
  passwordHash : String
  createdAt : Int
deriving DecidableEq

structure SessionRow where
  id : Nat
  userId : Nat
  tokenHash : String
  expiresAt : Int
  createdAt : Int
deriving DecidableEq

structure Db where
  users : List UserRow
  sessions : List SessionRow
  nextSessionId : Nat
deriving DecidableEq

/-- `SESSION_DURATION_DAYS * 24 * 60 * 60` seconds. -/
def SESSION_DURATION_SECONDS : Int := 30 * 86400

/-- `issue_session(conn, user_id)`: sweeps rows with `expires_at <= now`,
then inserts a new session row for `user_id`. The raw token is a
parameter (the source draws it from `secrets`); only its hash is
stored. Returns the raw token and the new database state. -/
def issueSession (db : Db) (userId : Nat) (now : Int) (token : String) :
    String × Db :=
  let kept := db.sessions.filter (fun s => now < s.expiresAt)
  let row : SessionRow :=
    ⟨db.nextSessionId, userId, hashSessionToken token,
      now + SESSION_DURATION_SECONDS, now⟩
  (token, { db with sessions := kept ++ [row], nextSessionId := db.nextSessionId + 1 })

/-- `_current_user()`: the session cookie value is a parameter. Resolves
the token hash against `sessions JOIN users` with `expires_at > now`
(the `token_hash` column is UNIQUE, so at most one session matches). -/
def currentUser (db : Db) (cookieToken : Option String) (now : Int) :
    Option UserRow :=
  match cookieToken with
  | none => none
  | some token =>
    if token = "" then none
    else
      match db.sessions.find?
          (fun s => s.tokenHash == hashSessionToken token && decide (now < s.expiresAt)) with
      | none => none
      | some s => db.users.find? (fun u => u.id == s.userId)

/-! ## Cookies, CSRF and logout -/

/-- The environment variables consulted by the cookie policy. -/
structure Env where
  cookieSecure : String
  envName : String
  cookieSameSite : String
deriving DecidableEq

def pyStrip (s : String) : String :=
  String.mk ((s.data.dropWhile (·.isWhitespace)).reverse.dropWhile (·.isWhitespace) |>.reverse)

def pyLower (s : String) : String := String.mk (s.data.map Char.toLower)

/-- Python `str.capitalize`: first character upper-cased, rest lower. -/
def pyCapitalize (s : String) : String :=
  match s.data with
  | [] => ""
  | c :: rest => String.mk (c.toUpper :: rest.map Char.toLower)

def shouldUseSecureCookie (env : Env) : Bool :=
  let v := pyLower (pyStrip env.cookieSecure)
  if v = "1" ∨ v = "true" ∨ v = "yes" ∨ v = "on" then true
  else pyLower (pyStrip env.envName) == "production"

def cookieSamesite (env : Env) : String :=
  let raw := pyCapitalize (pyStrip env.cookieSameSite)
  if raw = "Lax" ∨ raw = "Strict" ∨ raw = "None" then raw else "Lax"

def buildCookieHeader (env : Env) (name value : String) (maxAge : Nat)
    (httpOnly : Bool) : String :=
  String.intercalate "; "
    ([name ++ "=" ++ value, "Path=/", "SameSite=" ++ cookieSamesite env,
      "Max-Age=" ++ toString maxAge] ++
     (if httpOnly then ["HttpOnly"] else []) ++
     (if shouldUseSecureCookie env then ["Secure"] else []))

def SESSION_COOKIE_NAME : String := "subtracker_session"

def CSRF_COOKIE_NAME : String := "subtracker_csrf"

/-- `is_valid_csrf_pair(cookie_token, header_token)`: a missing (`None`)
or empty token is falsy and fails closed; otherwise a constant-time
string comparison. -/
def isValidCsrfPair (cookieToken headerToken : Option String) : Bool :=
  match cookieToken, headerToken with
  | some c, some h => if c = "" ∨ h = "" then false else c == h
  | _, _ => false

/-- A JSON response as produced by `_send_json`: HTTP status, the JSON
object payload and the extra headers passed by the handler. -/
inductive JVal where
  | jstr : String → JVal
  | jbool : Bool → JVal
deriving DecidableEq

structure Response where
  status : Nat
  body : List (String × JVal)
  headers : List (String × String)
deriving DecidableEq

def clearSessionCookieHeader (env : Env) : String × String :=
  ("Set-Cookie", buildCookieHeader env SESSION_COOKIE_NAME "" 0 true)

def clearCsrfCookieHeader (env : Env) : String × String :=
  ("Set-Cookie", buildCookieHeader env CSRF_COOKIE_NAME "" 0 false)

def logoutOkResponse (env : Env) : Response :=
  ⟨200, [("loggedOut", .jbool true)],
    [clearSessionCookieHeader env, clearCsrfCookieHeader env]⟩

/-- `_auth_logout()`: `if token and not self._require_csrf(): return`
enforces CSRF only when the session cookie is present (and non-empty);
then the session row is deleted and the clearing cookies are sent. -/
def authLogout (env : Env) (sessionCookie csrfCookie csrfHeader : Option String)
    (db : Db) : Response × Db :=
  match sessionCookie with
  | none => (logoutOkResponse env, db)
  | some token =>
    if token = "" then (logoutOkResponse env, db)
    else if isValidCsrfPair csrfCookie csrfHeader then
      (logoutOkResponse env,
        { db with sessions :=
            db.sessions.filter (fun s => !(s.tokenHash == hashSessionToken token)) })
    else
      (⟨403, [("error", .jstr "Invalid CSRF token")], []⟩, db)

/-! ## Parts modelled from the spec

The test suite (src/tests/test_server_logic.py) exercises an idle-timeout
policy, a `last_seen_at` session column and a `cleanup_login_rate_limits`
operation over a durable `login_rate_limits` table, none of which exist
in src/server.py. These are modelled from the spec below. -/

/-- Modelled from the spec: `session_idle_timeout_minutes()` /
`is_session_idle_expired(last_seen, now)` are missing from
src/server.py (only src/tests/test_server_logic.py calls them). Per the
spec, a non-zero idle-timeout policy rejects sessions whose last-seen
timestamp is older than the idle window; 0 disables idle expiry. -/
def isSessionIdleExpired (idleMinutes : Nat) (lastSeenAt now : Int) : Bool :=
  if idleMinutes = 0 then false
  else decide ((idleMinutes : Int) * 60 < now - lastSeenAt)

/-- A session row of the spec's data model, which carries a last-seen
timestamp (the `last_seen_at` column expected by the tests). -/
structure SessionRowIdle where
  userId : Nat
  tokenHash : String
  expiresAt : Int
  lastSeenAt : Int
deriving DecidableEq

/-- Modelled from the spec: session resolution under an idle-timeout
policy is missing from src/server.py (`_current_user` checks only
`expires_at`). Per the spec's `resolve(rawToken)`: hash the presented
token, look up a non-expired session joined to its user and, when the
idle policy is non-zero, additionally reject sessions whose last-seen
timestamp is older than the idle window. -/
def currentUserIdle (idleMinutes : Nat) (users : List UserRow)
    (sessions : List SessionRowIdle) (cookieToken : Option String) (now : Int) :
    Option UserRow :=
  match cookieToken with
  | none => none
  | some token =>
    if token = "" then none
    else
      match sessions.find?
          (fun s => s.tokenHash == hashSessionToken token &&
            decide (now < s.expiresAt) &&
            !(isSessionIdleExpired idleMinutes s.lastSeenAt now)) with
      | none => none
      | some s => users.find? (fun u => u.id == s.userId)

/-- A row of the `login_rate_limits` table of the spec's data model. -/
structure RateLimitRow where
  limiterKey : String
  failedAttempts : Nat
  firstFailedAt : Int
  lastFailedAt : Int
  lockedUntil : Option Int
deriving DecidableEq

/-- Modelled from the spec: `cleanup_login_rate_limits(conn, now,
retention)` is missing from src/server.py (only
src/tests/test_server_logic.py calls it). Per the spec it bounds growth
of stale attempt records without clearing an active lockout: an entry
whose lockout is still in the future is always retained; an entry whose
lockout has already elapsed is stale (its state would reset on the next
check) and is removed; an entry with no lockout is removed once its last
activity predates the retention horizon. Returns the number of deleted
rows and the remaining table. -/
def cleanupLoginRateLimits (rows : List RateLimitRow) (now retention : Int) :
    Nat × List RateLimitRow :=
  let delete := fun (r : RateLimitRow) =>
    match r.lockedUntil with
    | some lockedUntil => decide (lockedUntil ≤ now)
    | none => decide (r.lastFailedAt < now - retention)
  let remaining := rows.filter (fun r => !(delete r))
  (rows.length - remaining.length, remaining)

/-! ## Helper lemmas: hex round-trips -/

theorem encodeHexDigit_ne_colon (d : Nat) : encodeHexDigit d ≠ ':' := by
  unfold encodeHexDigit hexChars
  rcases Nat.lt_or_ge d 16 with h | h
  · interval_cases d <;> decide
  · rw [List.getD_eq_default]
    · decide
    · simpa using h

theorem encodeHexDigit_ne_space (d : Nat) : encodeHexDigit d ≠ ' ' := by
  unfold encodeHexDigit hexChars
  rcases Nat.lt_or_ge d 16 with h | h
  · interval_cases d <;> decide
  · rw [List.getD_eq_default]
    · decide
    · simpa using h

theorem hexDigitVal_encodeHexDigit (d : Nat) (h : d < 16) :
    hexDigitVal (encodeHexDigit d) = some d := by
  interval_cases d <;> rfl

theorem bytesFromHexChars_bytesToHexChars (bs : List Nat)
    (h : ∀ b ∈ bs, b < 256) :
    bytesFromHexChars (bytesToHexChars bs) = some bs := by
  induction bs with
  | nil => rfl
  | cons b rest ih =>
    have hb : b < 256 := h b (List.mem_cons_self b rest)
    have hrest : ∀ x ∈ rest, x < 256 := fun x hx => h x (List.mem_cons_of_mem b hx)
    have hhi : b / 16 < 16 := by omega
    have hlo : b % 16 < 16 := Nat.mod_lt _ (by norm_num)
    show bytesFromHexChars
      (encodeHexDigit (b / 16) :: encodeHexDigit (b % 16) :: bytesToHexChars rest) =
      some (b :: rest)
    rw [bytesFromHexChars]
    rw [if_neg (encodeHexDigit_ne_space (b / 16))]
    rw [hexDigitVal_encodeHexDigit _ hhi, hexDigitVal_encodeHexDigit _ hlo, ih hrest]
    have : 16 * (b / 16) + b % 16 = b := by omega
    simp [this]

theorem bytesToHexChars_no_colon (bs : List Nat) :
    ∀ c ∈ bytesToHexChars bs, c ≠ ':' := by
  intro c hc
  simp only [bytesToHexChars, List.mem_flatMap, byteToHexChars] at hc
  obtain ⟨b, _, hmem⟩ := hc
  simp only [List.mem_cons, List.not_mem_nil, or_false] at hmem
  rcases hmem with rfl | rfl
  · exact encodeHexDigit_ne_colon _
  · exact encodeHexDigit_ne_colon _

theorem splitOnceColon_append (pre rest : List Char) (h : ∀ c ∈ pre, c ≠ ':') :
    splitOnceColon (pre ++ ':' :: rest) = some (pre, rest) := by
  induction pre with
  | nil => simp [splitOnceColon]
  | cons c pre ih =>
    have hc : c ≠ ':' := h c (List.mem_cons_self c pre)
    have hpre : ∀ x ∈ pre, x ≠ ':' := fun x hx => h x (List.mem_cons_of_mem c hx)
    rw [List.cons_append, splitOnceColon, if_neg hc, ih hpre]

/-! ## Helper lemmas: digests are 32 byte-valued entries -/

theorem wordBytes_length (w : Nat) : (wordBytes w).length = 4 := rfl

theorem wordBytes_lt (w : Nat) : ∀ b ∈ wordBytes w, b < 256 := by
  intro b hb
  simp only [wordBytes, List.mem_cons, List.not_mem_nil, or_false] at hb
  rcases hb with rfl | rfl | rfl | rfl <;> exact Nat.mod_lt _ (by norm_num)

theorem sha256StateBytes_length (st : Sha256State) :
    (sha256StateBytes st).length = 32 := by
  simp [sha256StateBytes, wordBytes]

theorem sha256StateBytes_lt (st : Sha256State) :
    ∀ b ∈ sha256StateBytes st, b < 256 := by
  intro b hb
  simp only [sha256StateBytes, List.mem_append] at hb
  rcases hb with ((((((h | h) | h) | h) | h) | h) | h) | h <;> exact wordBytes_lt _ b h

theorem sha256Bytes_length (msg : List Nat) : (sha256Bytes msg).length = 32 :=
  sha256StateBytes_length _

theorem sha256Bytes_lt (msg : List Nat) : ∀ b ∈ sha256Bytes msg, b < 256 :=
  sha256StateBytes_lt _

theorem hmacSha256_length (key msg : List Nat) : (hmacSha256 key msg).length = 32 :=
  sha256Bytes_length _

theorem hmacSha256_lt (key msg : List Nat) : ∀ b ∈ hmacSha256 key msg, b < 256 :=
  sha256Bytes_lt _

theorem xor_lt_256 {a b : Nat} (ha : a < 256) (hb : b < 256) : a ^^^ b < 256 := by
  have : a ^^^ b < 2 ^ 8 :=
    Nat.xor_lt_two_pow (n := 8) (by omega) (by omega)
  simpa using this

theorem zipWith_xor_lt (as bs : List Nat) (ha : ∀ a ∈ as, a < 256)
    (hb : ∀ b ∈ bs, b < 256) :
    ∀ y ∈ List.zipWith (fun a b => a ^^^ b) as bs, y < 256 := by
  induction as generalizing bs with
  | nil => intro y hy; simp at hy
  | cons a as ih =>
    intro y hy
    cases bs with
    | nil => simp at hy
    | cons b bs =>
      simp only [List.zipWith_cons_cons, List.mem_cons] at hy
      rcases hy with rfl | hy
      · exact xor_lt_256 (ha a (by simp)) (hb b (by simp))
      · exact ih bs (fun x hx => ha x (by simp [hx]))
          (fun x hx => hb x (by simp [hx])) y hy

theorem pbkdf2Loop_length (pw : List Nat) (u acc : List Nat) (n : Nat)
    (hacc : acc.length = 32) : (pbkdf2Loop pw u acc n).length = 32 := by
  induction n generalizing u acc with
  | zero => simpa [pbkdf2Loop] using hacc
  | succ n ih =>
    rw [pbkdf2Loop]
    exact ih _ _ (by simp [hacc, hmacSha256_length])

theorem pbkdf2Loop_lt (pw : List Nat) (u acc : List Nat) (n : Nat)
    (hacc : ∀ y ∈ acc, y < 256) : ∀ y ∈ pbkdf2Loop pw u acc n, y < 256 := by
  induction n generalizing u acc with
  | zero => simpa [pbkdf2Loop] using hacc
  | succ n ih =>
    rw [pbkdf2Loop]
    exact ih _ _ (zipWith_xor_lt _ _ hacc (hmacSha256_lt _ _))

theorem pbkdf2HmacSha256_length (pw salt : List Nat) (n : Nat) :
    (pbkdf2HmacSha256 pw salt (n + 1)).length = 32 := by
  rw [pbkdf2HmacSha256]
  exact pbkdf2Loop_length _ _ _ _ (hmacSha256_length _ _)

theorem pbkdf2HmacSha256_lt (pw salt : List Nat) (n : Nat) :
    ∀ y ∈ pbkdf2HmacSha256 pw salt (n + 1), y < 256 := by
  rw [pbkdf2HmacSha256]
  exact pbkdf2Loop_lt _ _ _ _ (hmacSha256_lt _ _)

/-! ## Helper lemmas: `verify_password` against `hash_password` -/

theorem pbkdf2Digest_lt (p : String) (salt : List Nat) :
    ∀ y ∈ pbkdf2Digest p salt, y < 256 := by
  have h : PASSWORD_HASH_ITERATIONS = 199999 + 1 := by norm_num [PASSWORD_HASH_ITERATIONS]
  rw [pbkdf2Digest, h]
  exact pbkdf2HmacSha256_lt _ _ _

theorem pbkdf2Digest_length (p : String) (salt : List Nat) :
    (pbkdf2Digest p salt).length = 32 := by
  have h : PASSWORD_HASH_ITERATIONS = 199999 + 1 := by norm_num [PASSWORD_HASH_ITERATIONS]
  rw [pbkdf2Digest, h]
  exact pbkdf2HmacSha256_length _ _ _

theorem bytesToHex_data (bs : List Nat) : (bytesToHex bs).data = bytesToHexChars bs :=
  rfl

theorem verifyHexParts_roundtrip (p : String) (salt digest : List Nat)
    (hsalt : bytesFromHexChars (bytesToHexChars salt) = some salt)
    (hdig : bytesFromHexChars (bytesToHexChars digest) = some digest) :
    verifyHexParts p (bytesToHexChars salt) (bytesToHexChars digest) =
      .ok (compareDigest (pbkdf2Digest p salt) digest) := by
  unfold verifyHexParts
  rw [hsalt, hdig]

/-- What `verify_password` computes on an encoding produced by
`hash_password`: it re-derives the digest and compares byte strings. -/
theorem verifyPassword_hashPassword (p1 p2 : String) (salt : List Nat)
    (hsalt : ∀ b ∈ salt, b < 256) :
    verifyPassword p1 (hashPassword p2 salt) =
      .ok (compareDigest (pbkdf2Digest p1 salt) (pbkdf2Digest p2 salt)) := by
  have hdata : (hashPassword p2 salt).data =
      bytesToHexChars salt ++ ':' :: bytesToHexChars (pbkdf2Digest p2 salt) := by
    show (bytesToHex salt ++ ":" ++ bytesToHex (pbkdf2Digest p2 salt)).data = _
    have hcolon : (":" : String).data = [':'] := rfl
    rw [String.data_append, String.data_append, bytesToHex_data, bytesToHex_data,
      List.append_assoc, hcolon, List.singleton_append]
  unfold verifyPassword
  rw [hdata, splitOnceColon_append _ _ (bytesToHexChars_no_colon salt)]
  exact verifyHexParts_roundtrip p1 salt (pbkdf2Digest p2 salt)
    (bytesFromHexChars_bytesToHexChars salt hsalt)
    (bytesFromHexChars_bytesToHexChars _ (pbkdf2Digest_lt p2 salt))

-- After this point no proof unfolds the 200 000-iteration key
-- derivation; keeping it irreducible stops the elaborator from trying to
-- evaluate it during unification.
attribute [irreducible] pbkdf2Digest

/-! ## Helper lemmas: pigeonhole on the PBKDF2 digest -/

theorem pbkdf2Digest_getD_lt (salt : List Nat) (p : String) (i : Fin 32) :
    (pbkdf2Digest p salt).getD i 0 < 256 := by
  have hlen := pbkdf2Digest_length p salt
  have hi : (i : Nat) < (pbkdf2Digest p salt).length := by omega
  rw [List.getD_eq_getElem _ _ hi]
  exact pbkdf2Digest_lt p salt _ (List.getElem_mem hi)

/-- The digest of a password for a fixed salt, packed into the finite type
`Fin 32 → Fin 256`. -/
def digestFin (salt : List Nat) (p : String) : Fin 32 → Fin 256 :=
  fun i => ⟨(pbkdf2Digest p salt).getD i 0, pbkdf2Digest_getD_lt salt p i⟩

theorem digestFin_eq_iff (salt : List Nat) (p q : String)
    (h : digestFin salt p = digestFin salt q) :
    pbkdf2Digest p salt = pbkdf2Digest q salt := by
  apply List.ext_getElem
  · rw [pbkdf2Digest_length, pbkdf2Digest_length]
  · intro i h1 h2
    have hi : i < 32 := by rw [pbkdf2Digest_length] at h1; omega
    have hval : (pbkdf2Digest p salt).getD i 0 = (pbkdf2Digest q salt).getD i 0 :=
      congrArg Fin.val (congrFun h ⟨i, hi⟩)
    rw [List.getD_eq_getElem _ _ h1, List.getD_eq_getElem _ _ h2] at hval
    exact hval

/-- By pigeonhole, two distinct passwords collide on the PBKDF2 digest
for any fixed salt: the digest has only finitely many values while
passwords are unbounded. The collision is nonconstructive. -/
theorem exists_digest_collision (salt : List Nat) :
    ∃ p q : String, p ≠ q ∧ pbkdf2Digest p salt = pbkdf2Digest q salt := by
  obtain ⟨p, q, hne, heq⟩ :=
    Finite.exists_ne_map_eq_of_infinite (digestFin salt)
  exact ⟨p, q, hne, digestFin_eq_iff salt p q heq⟩

/-! ## Claim theorems -/

/-- C4: the spec claims every malformed encoded hash (missing delimiter,
non-hex salt or digest) makes `verify_password` return false without
raising. The code agrees for a missing delimiter but raises `ValueError`
for non-hex text: `bytes.fromhex` is outside the `try` block. This
theorem evaluates the embedded code on the failing inputs. -/
theorem c4_bad_hex_raises :
    verifyPassword "pw" "zz:zz" = .error .valueError ∧
    verifyPassword "pw" "00:gg" = .error .valueError ∧
    verifyPassword "pw" "nodelimiter" = .ok false :=
  ⟨rfl, rfl, rfl⟩

/-- C7 (amended): `verify(P, hash(P))` is true for every password and
byte-valued salt, and `verify(P1, hash(P2))` returns exactly whether the
two derived PBKDF2 digests coincide — in particular it is false whenever
the digests differ. The unconditional claim for all `P1 ≠ P2` fails by
pigeonhole (see the counterexample). -/
theorem c7_verify_roundtrip (p1 p2 : String) (salt : List Nat)
    (hsalt : ∀ b ∈ salt, b < 256) :
    verifyPassword p2 (hashPassword p2 salt) = .ok true ∧
    verifyPassword p1 (hashPassword p2 salt) =
      .ok (compareDigest (pbkdf2Digest p1 salt) (pbkdf2Digest p2 salt)) ∧
    (pbkdf2Digest p1 salt ≠ pbkdf2Digest p2 salt →
      verifyPassword p1 (hashPassword p2 salt) = .ok false) := by
  refine ⟨?_, verifyPassword_hashPassword p1 p2 salt hsalt, ?_⟩
  · rw [verifyPassword_hashPassword p2 p2 salt hsalt]
    simp [compareDigest]
  · intro hne
    rw [verifyPassword_hashPassword p1 p2 salt hsalt]
    simp [compareDigest, hne]

theorem c7_verify_roundtrip_witness :
    verifyPassword "password123"
      (hashPassword "password123" (List.replicate 16 0)) = .ok true :=
  (c7_verify_roundtrip "wrong-password" "password123" (List.replicate 16 0)
    (by intro b hb; rw [List.eq_of_mem_replicate hb]; norm_num)).1

/-- C7 counterexample: it is not the case that `verify(P1, hash(P2))` is
false for every pair of distinct passwords. The digest ranges over a
finite set while passwords do not, so two distinct passwords collide and
verify accepts the wrong password (the collision is nonconstructive). -/
theorem c7_collision_counterexample :
    ¬ ∀ p1 p2 : String, p1 ≠ p2 →
        verifyPassword p1 (hashPassword p2 (List.replicate 16 0)) =
          Except.ok false := by
  intro hclaim
  have hsalt : ∀ b ∈ List.replicate 16 0, b < 256 := by
    intro b hb
    rw [List.eq_of_mem_replicate hb]
    norm_num
  obtain ⟨p, q, hne, heq⟩ := exists_digest_collision (List.replicate 16 0)
  have hv := hclaim p q hne
  rw [verifyPassword_hashPassword p q _ hsalt, heq] at hv
  simp [compareDigest] at hv

/-- C8: `is_valid_csrf_pair` returns true exactly when both tokens are
present (non-`None`, non-empty) and equal; in particular it is false on
`("", "x")`, `("x", None)` and `("a", "b")`. -/
theorem c8_csrf_pair :
    (∀ c h : Option String, isValidCsrfPair c h = true ↔
      ∃ s, c = some s ∧ h = some s ∧ s ≠ "") ∧
    isValidCsrfPair (some "") (some "x") = false ∧
    isValidCsrfPair (some "x") none = false ∧
    isValidCsrfPair (some "a") (some "b") = false := by
  refine ⟨?_, rfl, rfl, by decide⟩
  intro c h
  constructor
  · intro hv
    match c, h with
    | none, _ => exact absurd hv (by simp [isValidCsrfPair])
    | some cs, none => exact absurd hv (by simp [isValidCsrfPair])
    | some cs, some hs =>
      change (if cs = "" ∨ hs = "" then false else cs == hs) = true at hv
      by_cases hemp : cs = "" ∨ hs = ""
      · rw [if_pos hemp] at hv
        exact absurd hv (by simp)
      · rw [if_neg hemp] at hv
        push_neg at hemp
        refine ⟨cs, rfl, ?_, hemp.1⟩
        rw [eq_of_beq hv]
  · rintro ⟨s, rfl, rfl, hs⟩
    show (if s = "" ∨ s = "" then false else s == s) = true
    rw [if_neg (by simp [hs])]
    simp

/-- C10: `is_limited` on a key with no rate-limit entry reports
`(False, 0)` and returns the limiter state unchanged — no entry is
created for the key. -/
theorem c10_isLimited_no_entry (lim : LoginRateLimiter) (key : String)
    (now : Int) (h : lookupEntry lim.entries key = none) :
    isLimited lim key now = ((false, 0), lim) := by
  unfold isLimited
  rw [h]

theorem c10_isLimited_no_entry_witness :
    isLimited initLoginRateLimiter "10.0.0.1|user@example.com" 0 =
      ((false, 0), initLoginRateLimiter) :=
  c10_isLimited_no_entry _ _ _ rfl

/-- C2: the spec claims login rate-limit state lives in the shared
durable store and survives restarts, with no process-wide in-memory
singleton. In the code `LOGIN_RATE_LIMITER = LoginRateLimiter()` is a
module-level singleton holding a plain dict: five failures lock a key in
that in-memory value, while the state a fresh process starts with
reports the same key as not limited — the lockout does not survive a
restart. The tests instead call a durable `check_login_rate_limit(conn,
...)` API that does not exist in src/server.py. -/
theorem c2_rate_limit_state_memory_only :
    (let l1 := (registerFailure initLoginRateLimiter "10.0.0.1|a@b.c" 0).2
     let l2 := (registerFailure l1 "10.0.0.1|a@b.c" 1).2
     let l3 := (registerFailure l2 "10.0.0.1|a@b.c" 2).2
     let l4 := (registerFailure l3 "10.0.0.1|a@b.c" 3).2
     let l5 := (registerFailure l4 "10.0.0.1|a@b.c" 4).2
     (isLimited l5 "10.0.0.1|a@b.c" 10).1 = (true, 894)) ∧
    isLimited initLoginRateLimiter "10.0.0.1|a@b.c" 10 =
      ((false, 0), initLoginRateLimiter) := by
  constructor
  · decide
  · decide

/-- C9: the logout endpoint skips CSRF validation entirely when the
request carries no session cookie: it answers 200 with
`{"loggedOut": true}` plus the two cookie-clearing Set-Cookie headers
and leaves the database untouched, for any CSRF cookie/header values.
The 403 CSRF rejection occurs exactly when a non-empty session cookie
is present and the CSRF pair is invalid. -/
theorem c9_logout_no_cookie_skips_csrf (env : Env) (c h : Option String) (db : Db) :
    authLogout env none c h db =
      (⟨200, [("loggedOut", JVal.jbool true)],
        [("Set-Cookie", buildCookieHeader env SESSION_COOKIE_NAME "" 0 true),
         ("Set-Cookie", buildCookieHeader env CSRF_COOKIE_NAME "" 0 false)]⟩, db) ∧
    (∀ tok : String,
      (authLogout env (some tok) c h db).1.status =
        if tok ≠ "" ∧ isValidCsrfPair c h = false then 403 else 200) := by
  refine ⟨rfl, ?_⟩
  intro tok
  by_cases htok : tok = ""
  · simp [authLogout, htok, logoutOkResponse]
  · by_cases hcsrf : isValidCsrfPair c h
    · simp [authLogout, htok, hcsrf, logoutOkResponse]
    · have hcsrf' : isValidCsrfPair c h = false := by
        simpa using hcsrf
      simp [authLogout, htok, hcsrf']

/-- C1: the spec (and the repository's own test
`test_issue_session_rotates_existing_sessions_for_user`) claims a second
`issue_session` for the same user replaces the first session row and the
first token stops resolving. The code only sweeps rows with
`expires_at <= now`: after two issuances at the same instant both rows
exist for the user and the first raw token still resolves to the user. -/
theorem c1_no_session_rotation :
    (let u : UserRow := ⟨1, "Rotate User", "rotate@example.com", "ph", 0⟩
     let db1 := (issueSession ⟨[u], [], 1⟩ 1 0 "tokA").2
     let db2 := (issueSession db1 1 0 "tokB").2
     ((db2.sessions.filter (fun s => s.userId == 1)).length = 2 ∧
      currentUser db2 (some "tokA") 0 = some u)) := by
  constructor
  · decide
  · decide

/-- C3 (spec-modelled): with `idleTimeoutMinutes = 10`, session
resolution accepts a session last seen 5 minutes ago and rejects one
last seen 11 minutes ago even though its absolute expiry is still in the
future; the idle-expiry predicate itself agrees. -/
theorem c3_idle_timeout_resolution (u : UserRow) (tok : String)
    (now expiresAt : Int) (htok : tok ≠ "") (hexp : now < expiresAt) :
    currentUserIdle 10 [u] [⟨u.id, hashSessionToken tok, expiresAt, now - 300⟩]
      (some tok) now = some u ∧
    currentUserIdle 10 [u] [⟨u.id, hashSessionToken tok, expiresAt, now - 660⟩]
      (some tok) now = none ∧
    isSessionIdleExpired 10 (now - 300) now = false ∧
    isSessionIdleExpired 10 (now - 660) now = true := by
  have hfresh : isSessionIdleExpired 10 (now - 300) now = false := by
    unfold isSessionIdleExpired
    rw [if_neg (by norm_num)]
    simp only [decide_eq_false_iff_not]
    omega
  have hstale : isSessionIdleExpired 10 (now - 660) now = true := by
    unfold isSessionIdleExpired
    rw [if_neg (by norm_num)]
    simp only [decide_eq_true_eq]
    omega
  refine ⟨?_, ?_, hfresh, hstale⟩
  · simp [currentUserIdle, htok, List.find?, hfresh, hexp]
  · simp [currentUserIdle, htok, List.find?, hstale]

theorem c3_idle_timeout_resolution_witness :
    currentUserIdle 10 [⟨1, "n", "e@x.y", "ph", 0⟩]
      [⟨1, hashSessionToken "tok", 1000, -300⟩] (some "tok") 0 =
      some ⟨1, "n", "e@x.y", "ph", 0⟩ :=
  (c3_idle_timeout_resolution ⟨1, "n", "e@x.y", "ph", 0⟩ "tok" 0 1000
    (by decide) (by decide)).1

/-- C6: with `max_attempts = 5`, the fifth `register_failure` within the
rolling window returns the positive lockout duration in seconds while
the first four return 0 and the lockout is set to the fifth failure time
plus 900 s; every `is_limited` check before the lockout expiry reports
limited with retry-after at least 1; a check at or after expiry reports
not limited with retry-after 0 and resets the failure count to zero. -/
theorem c6_lockout_flow (key : String) (t1 t2 t3 t4 t5 : Int)
    (h12 : t1 ≤ t2) (h23 : t2 ≤ t3) (h34 : t3 ≤ t4) (h45 : t4 ≤ t5)
    (hw : t5 - t1 ≤ 600) :
    (let r1 := registerFailure initLoginRateLimiter key t1
     let r2 := registerFailure r1.2 key t2
     let r3 := registerFailure r2.2 key t3
     let r4 := registerFailure r3.2 key t4
     let r5 := registerFailure r4.2 key t5
     r1.1 = 0 ∧ r2.1 = 0 ∧ r3.1 = 0 ∧ r4.1 = 0 ∧ r5.1 = 900 ∧
     lookupEntry r5.2.entries key = some ⟨[t1, t2, t3, t4, t5], some (t5 + 900)⟩ ∧
     (∀ t : Int, t < t5 + 900 →
       (isLimited r5.2 key t).1.1 = true ∧ 1 ≤ (isLimited r5.2 key t).1.2) ∧
     (∀ t : Int, t5 + 900 ≤ t →
       (isLimited r5.2 key t).1 = (false, 0) ∧
       lookupEntry (isLimited r5.2 key t).2.entries key = some ⟨[], none⟩)) := by
  have e1 : registerFailure initLoginRateLimiter key t1 =
      (0, ⟨5, 600, 900, [(key, ⟨[t1], none⟩)]⟩) := by
    simp [registerFailure, initLoginRateLimiter, lookupEntry, setEntry,
      pruneAttempts, List.find?]
  have e2 : registerFailure (⟨5, 600, 900, [(key, ⟨[t1], none⟩)]⟩ : LoginRateLimiter)
      key t2 = (0, ⟨5, 600, 900, [(key, ⟨[t1, t2], none⟩)]⟩) := by
    simp [registerFailure, lookupEntry, setEntry, pruneAttempts, List.find?,
      List.filter_cons, show t2 ≤ 600 + t1 by omega]
  have e3 : registerFailure (⟨5, 600, 900, [(key, ⟨[t1, t2], none⟩)]⟩ : LoginRateLimiter)
      key t3 = (0, ⟨5, 600, 900, [(key, ⟨[t1, t2, t3], none⟩)]⟩) := by
    simp [registerFailure, lookupEntry, setEntry, pruneAttempts, List.find?,
      List.filter_cons, show t3 ≤ 600 + t1 by omega, show t3 ≤ 600 + t2 by omega]
  have e4 : registerFailure (⟨5, 600, 900, [(key, ⟨[t1, t2, t3], none⟩)]⟩ : LoginRateLimiter)
      key t4 = (0, ⟨5, 600, 900, [(key, ⟨[t1, t2, t3, t4], none⟩)]⟩) := by
    simp [registerFailure, lookupEntry, setEntry, pruneAttempts, List.find?,
      List.filter_cons, show t4 ≤ 600 + t1 by omega, show t4 ≤ 600 + t2 by omega,
      show t4 ≤ 600 + t3 by omega]
  have e5 : registerFailure (⟨5, 600, 900, [(key, ⟨[t1, t2, t3, t4], none⟩)]⟩ : LoginRateLimiter)
      key t5 = (900, ⟨5, 600, 900, [(key, ⟨[t1, t2, t3, t4, t5], some (t5 + 900)⟩)]⟩) := by
    simp [registerFailure, lookupEntry, setEntry, pruneAttempts, List.find?,
      List.filter_cons, show t5 ≤ 600 + t1 by omega, show t5 ≤ 600 + t2 by omega,
      show t5 ≤ 600 + t3 by omega, show t5 ≤ 600 + t4 by omega]
  simp only [e1, e2, e3, e4, e5]
  refine ⟨by simp, by simp, by simp, by simp, by simp, ?_, ?_, ?_⟩
  · simp [lookupEntry, List.find?]
  · intro t ht
    have hl : isLimited (⟨5, 600, 900,
        [(key, ⟨[t1, t2, t3, t4, t5], some (t5 + 900)⟩)]⟩ : LoginRateLimiter) key t =
        ((true, max 1 (t5 + 900 - t)),
          ⟨5, 600, 900, [(key, ⟨[t1, t2, t3, t4, t5], some (t5 + 900)⟩)]⟩) := by
      simp [isLimited, lookupEntry, List.find?, ht]
    rw [hl]
    exact ⟨rfl, le_max_left _ _⟩
  · intro t ht
    have hl : isLimited (⟨5, 600, 900,
        [(key, ⟨[t1, t2, t3, t4, t5], some (t5 + 900)⟩)]⟩ : LoginRateLimiter) key t =
        ((false, 0), ⟨5, 600, 900, [(key, ⟨[], none⟩)]⟩) := by
      simp [isLimited, lookupEntry, setEntry, List.find?, show ¬(t < t5 + 900) by omega]
    rw [hl]
    exact ⟨rfl, by simp [lookupEntry, List.find?]⟩

theorem c6_lockout_flow_witness :
    (registerFailure
      (registerFailure
        (registerFailure
          (registerFailure
            (registerFailure initLoginRateLimiter "k" 0).2 "k" 1).2 "k" 2).2
        "k" 3).2 "k" 4).1 = 900 := by
  have h := c6_lockout_flow "k" 0 1 2 3 4 (by decide) (by decide) (by decide)
    (by decide) (by decide)
  exact h.2.2.2.2.1

/-- C5 (spec-modelled): `cleanup(now, retention)` deletes every entry
whose last activity is older than the retention horizon and whose
lockout, if any, has already expired; it retains every entry whose
lockout is still in the future. Concretely, with a 24-hour retention an
entry 4 days old with no lock and one 2 hours old with an
already-expired lock are deleted, while an entry locked for 10 more
minutes is kept. -/
theorem c5_cleanup_retention (rows : List RateLimitRow) (now retention : Int) :
    (∀ r ∈ rows, r.lastFailedAt < now - retention →
      (∀ lu, r.lockedUntil = some lu → lu ≤ now) →
      r ∉ (cleanupLoginRateLimits rows now retention).2) ∧
    (∀ r ∈ rows, (∃ lu, r.lockedUntil = some lu ∧ now < lu) →
      r ∈ (cleanupLoginRateLimits rows now retention).2) ∧
    cleanupLoginRateLimits
      [⟨"old-attempts", 1, now - 345600, now - 345600, none⟩,
       ⟨"expired-lock", 5, now - 7200, now - 7200, some (now - 60)⟩,
       ⟨"active-lock", 5, now, now, some (now + 600)⟩] now 86400 =
      (2, [⟨"active-lock", 5, now, now, some (now + 600)⟩]) := by
  have hmem : ∀ r : RateLimitRow,
      r ∈ (cleanupLoginRateLimits rows now retention).2 ↔
        r ∈ rows ∧ ((∃ lu, r.lockedUntil = some lu ∧ now < lu) ∨
          (r.lockedUntil = none ∧ now - retention ≤ r.lastFailedAt)) := by
    intro r
    unfold cleanupLoginRateLimits
    simp only [List.mem_filter]
    constructor
    · rintro ⟨hr, hb⟩
      refine ⟨hr, ?_⟩
      cases hlu : r.lockedUntil with
      | some lu =>
        have hb' : ¬ (lu ≤ now) := by simpa [hlu] using hb
        exact Or.inl ⟨lu, rfl, by omega⟩
      | none =>
        have hb' : ¬ (r.lastFailedAt < now - retention) := by simpa [hlu] using hb
        exact Or.inr ⟨rfl, by omega⟩
    · rintro ⟨hr, hcond⟩
      refine ⟨hr, ?_⟩
      rcases hcond with ⟨lu, hlu, hfut⟩ | ⟨hlu, hrecent⟩
      · simp [hlu]
        omega
      · simp [hlu]
        omega
  refine ⟨?_, ?_, ?_⟩
  · intro r hr hold hlock hin
    rcases (hmem r).mp hin with ⟨-, ⟨lu, hlu, hfut⟩ | ⟨-, hrecent⟩⟩
    · have := hlock lu hlu
      omega
    · omega
  · intro r hr hlock
    obtain ⟨lu, hlu, hfut⟩ := hlock
    exact (hmem r).mpr ⟨hr, Or.inl ⟨lu, hlu, hfut⟩⟩
  · rw [cleanupLoginRateLimits]
    simp [List.filter_cons, show now - 345600 < now - 86400 by omega,
      show now - 60 ≤ now by omega, show ¬(now + 600 ≤ now) by omega]

theorem c5_cleanup_retention_witness :
    cleanupLoginRateLimits
      [⟨"old-attempts", 1, -345600, -345600, none⟩,
       ⟨"expired-lock", 5, -7200, -7200, some (-60)⟩,
       ⟨"active-lock", 5, 0, 0, some 600⟩] 0 86400 =
      (2, [⟨"active-lock", 5, 0, 0, some 600⟩]) := by
  have h := (c5_cleanup_retention [] 0 0).2.2
  simpa using h

end SubTracker
